import Mathlib

/-!
Shallow embedding of the `python-injection` core (`src/injection/_core/module.py`,
`src/injection/_core/__init__.py`, `src/injection/_core/common/*.py`).

Conventions of the embedding:
* Keys (`InputType` classes, already standardized by the `on_input` / `on_update`
  hooks) are abstracted as `Key := Nat`.
* Instances are abstracted as `Instance := Nat`; a factory is a function
  `Nat → Instance` applied to a fresh-supply counter that is incremented at every
  factory invocation, so that a "fresh object per call" factory is an injective
  function of the counter and the counter measures the number of invocations.
* Python exceptions are modelled by the `Err` sum; stateful operations return
  their post-state even in the error case, mirroring the fact that a Python
  object keeps whatever state it had when an exception propagates.
-/

abbrev Key := Nat

abbrev Instance := Nat

abbrev Factory := Nat → Instance

/-- The exception taxonomy of `injection.exceptions` plus the conflict
`RuntimeError` raised by the `check_mode` hook. -/
inductive Err where
  | conflict (k : Key)
  | noInjectable (k : Key)
  | shouldBeInjectable (k : Key)
  | selfUse
  | alreadyUsed
  | lockError
  | notUsed
  | bodyError
  deriving DecidableEq, Repr

/-- Enum `Mode` (`StrEnum`): `FALLBACK`, `NORMAL`, `OVERRIDE`, in declaration order. -/
inductive Mode where
  | fallback
  | normal
  | override
  deriving DecidableEq, Repr

/-- Rank `Mode.rank`: index in the declaration order of the enum. -/
def Mode.rank : Mode → Nat
  | .fallback => 0
  | .normal => 1
  | .override => 2

/--
The three injectable classes of `module.py`:
`SimpleInjectable` (calls its factory on every `get_instance`),
`SingletonInjectable` (caches the first result in `self.__dict__`),
`ShouldBeInjectable` (always raises `InjectionError`).
-/
inductive Injectable where
  | simple (factory : Factory)
  | singleton (factory : Factory) (cache : Option Instance)
  | shouldBe (cls : Key)

/-- Lock state `Injectable.is_locked`: only a `SingletonInjectable` with a cached instance
reports locked. -/
def Injectable.isLocked : Injectable → Bool
  | .simple _ => false
  | .singleton _ cache => cache.isSome
  | .shouldBe _ => false

/-- Unlock `Injectable.unlock`: `SingletonInjectable.unlock` clears the cache; the other
classes inherit the no-op default. -/
def Injectable.unlock : Injectable → Injectable
  | .simple f => .simple f
  | .singleton f _ => .singleton f none
  | .shouldBe c => .shouldBe c

/--
Method `get_instance`, threading the fresh-supply counter:
* `SimpleInjectable.get_instance` invokes the factory every call;
* `SingletonInjectable.get_instance` returns the cached instance when present and
  otherwise invokes the factory once and caches the result;
* `ShouldBeInjectable.get_instance` raises
  `InjectionError`, naming the class.
-/
def Injectable.getInstance : Injectable → Nat → Except Err (Instance × Injectable × Nat)
  | .simple f, n => .ok (f n, .simple f, n + 1)
  | .singleton f cache, n =>
    match cache with
    | some i => .ok (i, .singleton f (some i), n)
    | none => .ok (f n, .singleton f (some (f n)), n + 1)
  | .shouldBe c, _ => .error (.shouldBeInjectable c)

/-- The `Record` (`NamedTuple`): an injectable together with its registration mode. -/
structure Record where
  injectable : Injectable
  mode : Mode

/-- A `Locator`: the `__records` dict, one record per (standardized) key. -/
structure Locator where
  records : List (Key × Record)

/-- Lookup in the `__records` dict. -/
def Locator.lookupRecord (loc : Locator) (k : Key) : Option Record :=
  (loc.records.find? (fun p => p.1 = k)).map Prod.snd

/-- Lookup `Locator.__getitem__` restricted to an already-standardized key: return the
record's injectable or raise `NoInjectable`. -/
def Locator.getItem (loc : Locator) (k : Key) : Except Err Injectable :=
  match loc.lookupRecord k with
  | some record => .ok record.injectable
  | none => .error (.noInjectable k)

/-- Lock state `Locator.is_locked`: some stored injectable is locked. -/
def Locator.isLocked (loc : Locator) : Bool :=
  loc.records.any (fun p => p.2.injectable.isLocked)

/-- Unlock `Locator.unlock`: unlock every stored injectable. -/
def Locator.unlock (loc : Locator) : Locator :=
  ⟨loc.records.map (fun p => (p.1, ⟨p.2.injectable.unlock, p.2.mode⟩))⟩

/--
The composition of the two `on_conflict` hooks of `_core/__init__.py` around the
base handler `lambda ...: False`, as built by `Hook.__apply_stack`
(`check_mode` inner, `compare_mode_rank` outer):
* `check_mode` raises the conflict `RuntimeError` when the new mode equals the
  existing one and is not `OVERRIDE`; otherwise it returns `inner ∨ is_override`;
* `compare_mode_rank` returns `inner ∨ rank(new) > rank(existing)`.
Net result: error on equal non-override modes, else keep the new record iff the
new mode is `OVERRIDE` or has strictly greater rank.
-/
def keepNewRecord (new existing : Record) (cls : Key) : Except Err Bool :=
  if new.mode = existing.mode ∧ new.mode ≠ .override then
    .error (.conflict cls)
  else
    .ok (new.mode = .override ∨ existing.mode.rank < new.mode.rank)

/--
Preparation `Locator.__prepare_for_updating`: walk the (standardized, de-duplicated) keys,
checking each against the records dict as it was at call time (the dict is not
written while the generator runs: `dict(...)` in `update` consumes it fully
first). Returns the accepted keys, or propagates the conflict error.
-/
def Locator.prepareForUpdating (loc : Locator) (classes : List Key) (record : Record) :
    Except Err (List Key) :=
  match classes with
  | [] => .ok []
  | c :: rest =>
    match loc.lookupRecord c with
    | none => (fun acc => c :: acc) <$> loc.prepareForUpdating rest record
    | some existing => do
      let keep ← keepNewRecord record existing c
      if keep then
        (fun acc => c :: acc) <$> loc.prepareForUpdating rest record
      else
        loc.prepareForUpdating rest record

/-- Write one record into the dict (replace the entry if the key is present,
append it otherwise). -/
def Locator.setRecord (loc : Locator) (k : Key) (record : Record) : Locator :=
  if loc.records.any (fun p => p.1 = k) then
    ⟨loc.records.map (fun p => if p.1 = k then (k, record) else p)⟩
  else
    ⟨loc.records ++ [(k, record)]⟩

/-- Write `self.__records.update(records)` for the accepted keys. -/
def Locator.writeAll (loc : Locator) (accepted : List Key) (record : Record) : Locator :=
  accepted.foldl (fun acc k => acc.setRecord k record) loc

/-- The `LocatorDependenciesUpdated` event: the accepted keys and the mode. -/
structure LocEvent where
  classes : List Key
  mode : Mode

/--
Registration `Locator.update` for a stand-alone locator (no module listening): preprocess the
keys (`standardize_classes` makes them a set — modelled by `dedup`), build the
full accepted dict, and only then write it and dispatch a single
`LocatorDependenciesUpdated` event (dispatched only when at least one key was
accepted). On a conflict error nothing is written and no event is dispatched;
the locator is returned unchanged alongside the error.
-/
def Locator.update (loc : Locator) (classes : List Key) (record : Record) :
    Option Err × Locator × Option LocEvent :=
  match loc.prepareForUpdating classes.dedup record with
  | .error e => (some e, loc, none)
  | .ok accepted =>
    if accepted.isEmpty then
      (none, loc, none)
    else
      (none, loc.writeAll accepted record, some ⟨accepted, record.mode⟩)

/-- Resolution `Module.find_instance` at the locator level: look the key up and produce an
instance from the found injectable, writing the possibly-updated injectable
(singleton cache) back into the records dict. -/
def Locator.findInstance (loc : Locator) (k : Key) (n : Nat) :
    Except Err (Instance × Locator × Nat) :=
  match loc.lookupRecord k with
  | none => .error (.noInjectable k)
  | some record => do
    let (i, inj, n') ← record.injectable.getInstance n
    .ok (i, loc.setRecord k ⟨inj, record.mode⟩, n')

/-!
The `Module` layer. A `Module` composes its own `Locator` with the ordered
`__modules` dict of other modules it uses (front of the list = searched first,
i.e. most authoritative). Python compares modules by identity (`eq=False`
dataclass); identity is modelled by a numeric `name`. The object graph is
modelled as a tree: each used module is held by value. The type lives in the
`Inj` namespace to keep the source's class name `Module`.
-/

namespace Inj

/-- Enum `Priority` (`StrEnum`): `LOW`, `HIGH`; `HIGH` is the most authoritative
position (searched first). -/
inductive Priority where
  | low
  | high
  deriving DecidableEq, Repr

inductive Module where
  | mk (name : Nat) (locator : Locator) (used : List Module)

def Module.name : Module → Nat
  | .mk n _ _ => n

def Module.locator : Module → Locator
  | .mk _ loc _ => loc

def Module.used : Module → List Module
  | .mk _ _ us => us

mutual

/-- Lock state `Module.is_locked`: some broker (used modules in order, then the own
locator) is locked. -/
def Module.isLocked : Module → Bool
  | .mk _ loc us => usedAnyLocked us || loc.isLocked

def usedAnyLocked : List Module → Bool
  | [] => false
  | m :: ms => m.isLocked || usedAnyLocked ms

end

mutual

/-- Resolution `Module.__getitem__`: try each broker in order (used modules front-to-back,
then the own locator), suppressing the `KeyError` of a miss; `none` models the
final `NoInjectable` raise. -/
def Module.getInj : Module → Key → Option Injectable
  | .mk _ loc us, k =>
    match usedGetInj us k with
    | some inj => some inj
    | none =>
      match loc.getItem k with
      | .ok inj => some inj
      | .error _ => none

def usedGetInj : List Module → Key → Option Injectable
  | [], _ => none
  | m :: ms, k =>
    match m.getInj k with
    | some inj => some inj
    | none => usedGetInj ms k

end

/-- Resolution `Module.__getitem__` with the final `NoInjectable` raise made explicit. -/
def Module.findInj (m : Module) (k : Key) : Except Err Injectable :=
  match m.getInj k with
  | some inj => .ok inj
  | none => .error (.noInjectable k)

mutual

/-- Unlock `Module.unlock`: cascade `unlock` to every broker (used modules and the own
locator). -/
def Module.unlock : Module → Module
  | .mk n loc us => .mk n loc.unlock (usedUnlock us)

def usedUnlock : List Module → List Module
  | [] => []
  | m :: ms => m.unlock :: usedUnlock ms

end

def Module.usedNames (m : Module) : List Nat :=
  m.used.map Module.name

/--
Operation `Module.use`: reject self-use and duplicate use, then dispatch the
`ModuleAdded` event — whose entry runs `__check_locking`, raising
`ModuleLockError` before any mutation when the module is locked — and finally
insert the used module: `__modules[module] = None` appends it and
`__move_module` moves it to the front for `Priority.HIGH` and leaves it at the
end for `Priority.LOW`.
-/
def Module.use (m other : Module) (p : Priority) : Option Err × Module :=
  if other.name = m.name then
    (some .selfUse, m)
  else if m.usedNames.contains other.name then
    (some .alreadyUsed, m)
  else if m.isLocked then
    (some .lockError, m)
  else
    match p with
    | .high => (none, .mk m.name m.locator (other :: m.used))
    | .low => (none, .mk m.name m.locator (m.used ++ [other]))

/--
Operation `Module.stop_using`: the `ModuleRemoved` dispatch runs `__check_locking` first
(so a locked module raises `ModuleLockError` even when the argument is not in
use); then `__modules.pop` removes the module, its `KeyError` on absence being
suppressed (no-op, no error).
-/
def Module.stopUsing (m other : Module) : Option Err × Module :=
  if m.isLocked then
    (some .lockError, m)
  else if m.usedNames.contains other.name then
    (none, .mk m.name m.locator (m.used.filter (fun u => u.name ≠ other.name)))
  else
    (none, m)

/--
Operation `Module.change_priority`: the `ModulePriorityUpdated` dispatch runs
`__check_locking` first; then `__move_module` repositions the module
(`HIGH` → front, `LOW` → end), raising `ModuleNotUsedError` when it is not in
the used dict.
-/
def Module.changePriority (m other : Module) (p : Priority) : Option Err × Module :=
  if m.isLocked then
    (some .lockError, m)
  else
    match m.used.find? (fun u => u.name = other.name) with
    | none => (some .notUsed, m)
    | some u =>
      let rest := m.used.filter (fun v => v.name ≠ other.name)
      match p with
      | .high => (none, .mk m.name m.locator (u :: rest))
      | .low => (none, .mk m.name m.locator (rest ++ [u]))

/--
Registration `Module.update`: delegates to `Locator.update`. The module
listens to its own locator, so the `LocatorDependenciesUpdated` dispatch —
which happens only when at least one key was accepted — re-enters
`Module.dispatch`, whose `__check_locking` raises `ModuleLockError` before the
records are written. The conflict check of `__prepare_for_updating` runs
before the dispatch, so a conflict raises its own error even on a locked
module, and an update whose keys are all silently skipped dispatches nothing
and succeeds without touching the lock check. The returned `Bool` records
whether the module re-dispatched the event as a `ModuleEventProxy`.
-/
def Module.updateE (m : Module) (classes : List Key) (record : Record) :
    Option Err × Module × Bool :=
  match m.locator.prepareForUpdating classes.dedup record with
  | .error e => (some e, m, false)
  | .ok accepted =>
    if accepted.isEmpty then
      (none, m, false)
    else if m.isLocked then
      (some .lockError, m, false)
    else
      (none, .mk m.name (m.locator.writeAll accepted record) m.used, true)

def Module.update (m : Module) (classes : List Key) (record : Record) :
    Option Err × Module :=
  ((m.updateE classes record).1, (m.updateE classes record).2.1)


/--
Context manager `Module.use_temporarily`: `use` on entry, then `yield`,
then `stop_using` — with no try/finally around the yield. An exception raised
by the with-body is thrown into the generator at the `yield` point and
propagates, so the `stop_using` line after the yield is skipped. The body is
modelled as an arbitrary state transformer that may raise.
-/
def Module.useTemporarily (m other : Module) (p : Priority)
    (body : Module → Option Err × Module) : Option Err × Module :=
  match m.use other p with
  | (some e, m') => (some e, m')
  | (none, m') =>
    match body m' with
    | (some e, m'') => (some e, m'')
    | (none, m'') => m''.stopUsing other

/-!
The `InjectedFunction` / `Dependencies` layer. A parameter list is the
callable's signature metadata: parameter name together with its annotation
(already reduced to a `Key`). Argument mappings (`bound.arguments`,
`Dependencies.arguments`) are name-keyed ordered dicts.
-/

def lookupName {α : Type} (xs : List (String × α)) (name : String) : Option α :=
  (xs.find? (fun p => p.1 = name)).map Prod.snd

/-- Python dict union `a | b`: keys of `a` in order (values taken from `b` when
present there), then the keys of `b` absent from `a`; the right operand wins on
a common key. -/
def dictUnion {α : Type} (a b : List (String × α)) : List (String × α) :=
  a.map (fun p => (p.1, (lookupName b p.1).getD p.2)) ++
    b.filter (fun p => (lookupName a p.1).isNone)

/--
The resolver `Dependencies.__resolver`: for each declared parameter, look its annotation up
in the module; a `KeyError` (`NoInjectable`) is swallowed and the entry simply
omitted — the map build itself never fails.
-/
def dependenciesResolver (params : List (String × Key)) (m : Module) :
    List (String × Injectable) :=
  params.filterMap (fun p => (m.getInj p.2).map (fun inj => (p.1, inj)))

/-- Iteration `Dependencies.__iter__` / `Dependencies.arguments`: an ordered dict of each
dependency name mapped to `injectable.get_instance()`. -/
def depsArguments : List (String × Injectable) → Nat →
    Except Err (List (String × Instance) × Nat)
  | [], n => .ok ([], n)
  | (name, inj) :: rest, n => do
    let (i, _, n') ← inj.getInstance n
    let (args, n'') ← depsArguments rest n'
    .ok ((name, i) :: args, n'')

/-- An `InjectedFunction`: the wrapped callable's signature metadata and the
cached name→injectable dependency map. -/
structure InjectedFunction where
  params : List (String × Key)
  deps : List (String × Injectable)

/-- Rebuild `InjectedFunction.update`: rebuild the dependency map against the module
(`Dependencies.resolve`; the `LazyMapping` defers the walk to its first read,
by which point the module state is the one the event reported). -/
def InjectedFunction.update (f : InjectedFunction) (m : Module) : InjectedFunction :=
  ⟨f.params, dependenciesResolver f.params m⟩

/--
Binding `InjectedFunction.bind` at the `bound.arguments` level: when the dependency map
is empty, return the explicitly bound arguments unchanged; otherwise produce
`bound.arguments | dependencies.arguments | bound.arguments` (Python dict
union, right operand winning), so an explicit argument always beats an
injected one.
-/
def InjectedFunction.bind (f : InjectedFunction) (bound : List (String × Instance))
    (n : Nat) : Except Err (List (String × Instance) × Nat) :=
  if f.deps.isEmpty then
    .ok (bound, n)
  else do
    let (depArgs, n') ← depsArguments f.deps n
    .ok (dictUnion (dictUnion bound depArgs) bound, n')

/--
Registration into module `m` observed by an injected function `f` listening to
`m`: `Locator.update` dispatches `LocatorDependenciesUpdated` (only when some
key was accepted), `m` re-dispatches it as a `ModuleEventProxy`, and the
`ModuleEvent` handler of `InjectedFunction.on_event` runs
`self.update(event.module)` on dispatch exit — after the records were written —
with no re-subscription involved.
-/
def Module.registerNotify (m : Module) (f : InjectedFunction) (classes : List Key)
    (record : Record) : Option Err × Module × InjectedFunction :=
  match m.updateE classes record with
  | (some e, m', _) => (some e, m', f)
  | (none, m', emitted) => (none, m', if emitted then f.update m' else f)

/--
Registration into a module `u` used by `m`, observed by an injected function
`f` listening to `m`: the dispatch chain is `u`'s locator → `u` (lock check on
`u`) → `m` as a listener of `u` (lock check on `m`, proxy event
`ModuleEventProxy(m, ...)`) → `f`, which updates against `m` on dispatch exit,
after `u`'s records were written.
-/
def Module.registerIntoUsed (m : Module) (f : InjectedFunction) (u : Module)
    (classes : List Key) (record : Record) : Option Err × Module × InjectedFunction :=
  match u.locator.prepareForUpdating classes.dedup record with
  | .error e => (some e, m, f)
  | .ok accepted =>
    if accepted.isEmpty then
      (none, m, f)
    else if u.isLocked then
      (some .lockError, m, f)
    else if m.isLocked then
      (some .lockError, m, f)
    else
      let u' := Module.mk u.name (u.locator.writeAll accepted record) u.used
      let m' := Module.mk m.name m.locator
        (m.used.map (fun v => if v.name = u.name then u' else v))
      (none, m', f.update m')

/-!
Concurrency model for registration races. `synchronized()`
(`_core/common/threading.py`) allocates a fresh `RLock` on every invocation and
acquires that fresh lock, so two concurrent `Locator.update` calls never
contend on the same lock. A schedule interleaves the two atomic phases of each
`update` call for one key (the conflict check of `__prepare_for_updating`
against the current records, then the `__records.update` write); a schedule is
admissible when either the two calls hold different locks or their steps do not
interleave.
-/

/-- A fresh `RLock()` inside `synchronized()`: draw a fresh lock id from the supply. -/
def synchronizedFreshLock (supply : Nat) : Nat × Nat :=
  (supply, supply + 1)

/-- The lock each of the two racing `update` calls actually holds: each call
runs `synchronized()` once, so the two lock ids are drawn consecutively from
the supply and are distinct. -/
def raceLockOf : Fin 2 → Nat := fun i =>
  if i = 0 then
    (synchronizedFreshLock 0).1
  else
    (synchronizedFreshLock (synchronizedFreshLock 0).2).1

inductive RStep where
  | check (tid : Fin 2)
  | write (tid : Fin 2)
  deriving DecidableEq, Repr

def RStep.tid : RStep → Fin 2
  | .check i => i
  | .write i => i

def threadStepPositions (sched : List RStep) (i : Fin 2) : List Nat :=
  (sched.enum.filter (fun p => p.2.tid = i)).map Prod.fst

def spansDisjoint (a b : List Nat) : Bool :=
  a.all (fun x => b.all (fun y => x < y)) || b.all (fun x => a.all (fun y => x < y))

/-- A schedule is admissible when the two calls hold distinct locks, or their
critical sections do not interleave. -/
def schedAdmissible (sched : List RStep) (lockOf : Fin 2 → Nat) : Bool :=
  decide (lockOf 0 ≠ lockOf 1) ||
    spansDisjoint (threadStepPositions sched 0) (threadStepPositions sched 1)

structure RaceConfig where
  rec0 : Record
  rec1 : Record

structure RaceState where
  stored : Option Record
  dec : Fin 2 → Option (Except Err Bool)

def RaceConfig.recOf (cfg : RaceConfig) (i : Fin 2) : Record :=
  if i = 0 then cfg.rec0 else cfg.rec1

/-- One atomic phase of an `update` call for a single key: `check` runs
`__prepare_for_updating` against the records as they currently stand; `write`
runs `__records.update` when the check accepted the key. -/
def raceStep (cfg : RaceConfig) (st : RaceState) : RStep → RaceState
  | .check i =>
    let d : Except Err Bool :=
      match st.stored with
      | none => .ok true
      | some existing => keepNewRecord (cfg.recOf i) existing 0
    ⟨st.stored, fun j => if j = i then some d else st.dec j⟩
  | .write i =>
    match st.dec i with
    | some (.ok true) => ⟨some (cfg.recOf i), st.dec⟩
    | _ => st

def runRace (cfg : RaceConfig) (sched : List RStep) : RaceState :=
  sched.foldl (raceStep cfg) ⟨none, fun _ => none⟩

/-- The interleaving check₀, check₁, write₀, write₁. -/
def raceSched : List RStep :=
  [.check 0, .check 1, .write 0, .write 1]

/-!
Helper lemmas.
-/

theorem mode_rank_inj : ∀ a b : Mode, a.rank = b.rank → a = b := by
  intro a b
  cases a <;> cases b <;> simp [Mode.rank]

theorem mode_rank_le_override : ∀ a : Mode, a.rank ≤ Mode.rank .override := by
  intro a
  cases a <;> simp [Mode.rank]

theorem lookupRecord_setRecord_self (loc : Locator) (k : Key) (r : Record) :
    (loc.setRecord k r).lookupRecord k = some r := by
  unfold Locator.setRecord Locator.lookupRecord
  split
  case isTrue h =>
    obtain ⟨records⟩ := loc
    simp only at h ⊢
    induction records with
    | nil => simp at h
    | cons p ps ih =>
      by_cases hp : p.1 = k
      · simp [hp]
      · simp only [List.any_cons, hp, decide_eq_true_eq, Bool.or_eq_true,
          decide_eq_false hp, Bool.false_or] at h
        simp only [List.map_cons, if_neg hp, List.find?_cons, decide_eq_false hp]
        exact ih (by simpa using h)
  case isFalse h =>
    rw [Bool.not_eq_true, List.any_eq_false] at h
    obtain ⟨records⟩ := loc
    simp only at h ⊢
    induction records with
    | nil => simp
    | cons p ps ih =>
      have hp : ¬ p.1 = k := by simpa using h p (List.mem_cons_self p ps)
      simp only [List.cons_append, List.find?_cons, decide_eq_false hp]
      exact ih (fun q hq => h q (List.mem_cons_of_mem p hq))

theorem dedup_single (k : Key) : [k].dedup = [k] := by
  simp

theorem prepare_single (loc : Locator) (k : Key) (rec : Record) :
    loc.prepareForUpdating [k] rec =
      (match loc.lookupRecord k with
      | none => .ok [k]
      | some existing =>
        match keepNewRecord rec existing k with
        | .error e => .error e
        | .ok true => .ok [k]
        | .ok false => .ok []) := by
  cases hl : loc.lookupRecord k with
  | none => simp [Locator.prepareForUpdating, hl]
  | some existing =>
    cases hk : keepNewRecord rec existing k with
    | error e => simp [Locator.prepareForUpdating, hl, hk, Bind.bind, Except.bind]
    | ok b =>
      cases b <;> simp [Locator.prepareForUpdating, hl, hk, Bind.bind, Except.bind]

theorem keepNewRecord_conflict (new old : Record) (k : Key)
    (h1 : new.mode = old.mode) (h2 : new.mode ≠ .override) :
    keepNewRecord new old k = .error (.conflict k) := by
  have h2o : ¬ old.mode = Mode.override := fun ho => h2 (h1.trans ho)
  simp [keepNewRecord, h1, h2, h2o]

theorem keepNewRecord_skip (new old : Record) (k : Key)
    (hlt : new.mode.rank < old.mode.rank) :
    keepNewRecord new old k = .ok false := by
  have hne : ¬ new.mode = old.mode := by
    intro he
    rw [he] at hlt
    exact lt_irrefl _ hlt
  have hnotov : ¬ new.mode = Mode.override := by
    intro he
    have h2 : old.mode.rank ≤ Mode.rank .override := mode_rank_le_override old.mode
    rw [he] at hlt
    exact absurd (lt_of_le_of_lt h2 hlt) (lt_irrefl _)
  simp [keepNewRecord, hne, hnotov, Nat.not_lt.mpr (Nat.le_of_lt hlt)]

theorem keepNewRecord_replace (new old : Record) (k : Key)
    (hle : old.mode.rank ≤ new.mode.rank)
    (hnc : ¬(new.mode = old.mode ∧ new.mode ≠ .override)) :
    keepNewRecord new old k = .ok true := by
  have hkeep : new.mode = Mode.override ∨ old.mode.rank < new.mode.rank := by
    rcases Nat.lt_or_ge old.mode.rank new.mode.rank with hlt | hge
    · exact Or.inr hlt
    · have heq : old.mode = new.mode := (mode_rank_inj _ _ (Nat.le_antisymm hge hle)).symm
      rcases Classical.em (new.mode = Mode.override) with hov | hov
      · exact Or.inl hov
      · exact absurd ⟨heq.symm, hov⟩ hnc
  simp only [keepNewRecord, if_neg hnc]
  rcases hkeep with hov | hlt
  · simp [hov]
  · simp [hlt]

/--
C1: For every Locator and normalized key k: with no existing record, a
register call for k is accepted (and a subsequent lookup returns the new
injectable); with an existing record, an equal non-Override mode raises the
conflict error; a strictly lower-ranked mode is silently skipped, keeping the
existing record; otherwise (rank at least the existing one, including
Override over Override) the record is replaced, so a subsequent lookup
returns the new injectable.
-/
theorem C1_register_conflict_policy (loc : Locator) (k : Key) (newRec : Record) :
    (loc.lookupRecord k = none →
      Locator.update loc [k] newRec =
        (none, loc.setRecord k newRec, some ⟨[k], newRec.mode⟩) ∧
      (loc.setRecord k newRec).getItem k = .ok newRec.injectable) ∧
    (∀ old, loc.lookupRecord k = some old →
      (newRec.mode = old.mode ∧ newRec.mode ≠ .override →
        Locator.update loc [k] newRec = (some (.conflict k), loc, none)) ∧
      (newRec.mode.rank < old.mode.rank →
        Locator.update loc [k] newRec = (none, loc, none)) ∧
      (old.mode.rank ≤ newRec.mode.rank →
        ¬(newRec.mode = old.mode ∧ newRec.mode ≠ .override) →
        Locator.update loc [k] newRec =
          (none, loc.setRecord k newRec, some ⟨[k], newRec.mode⟩) ∧
        (loc.setRecord k newRec).getItem k = .ok newRec.injectable)) := by
  constructor
  · intro h
    constructor
    · simp [Locator.update, dedup_single, prepare_single, h, Locator.writeAll]
    · simp [Locator.getItem, lookupRecord_setRecord_self]
  · intro old h
    refine ⟨?_, ?_, ?_⟩
    · rintro ⟨h1, h2⟩
      simp [Locator.update, dedup_single, prepare_single, h,
        keepNewRecord_conflict newRec old k h1 h2]
    · intro hlt
      simp [Locator.update, dedup_single, prepare_single, h,
        keepNewRecord_skip newRec old k hlt]
    · intro hle hnc
      constructor
      · simp [Locator.update, dedup_single, prepare_single, h,
          keepNewRecord_replace newRec old k hle hnc, Locator.writeAll]
      · simp [Locator.getItem, lookupRecord_setRecord_self]

/--
Witness for C1: concrete checks of all four branches — fresh key accepted;
Normal over Normal conflicts; Fallback under Normal silently skipped;
Override over Normal replaces and lookup returns the new injectable.
-/
theorem C1_register_conflict_policy_witness :
    (Locator.update ⟨[]⟩ [0] ⟨.simple (fun n => n), .normal⟩ =
      (none, Locator.setRecord ⟨[]⟩ 0 ⟨.simple (fun n => n), .normal⟩,
        some ⟨[0], .normal⟩)) ∧
    (Locator.update ⟨[(0, ⟨.simple (fun n => n), .normal⟩)]⟩ [0]
        ⟨.simple (fun n => n + 1), .normal⟩ =
      (some (.conflict 0), ⟨[(0, ⟨.simple (fun n => n), .normal⟩)]⟩, none)) ∧
    (Locator.update ⟨[(0, ⟨.simple (fun n => n), .normal⟩)]⟩ [0]
        ⟨.simple (fun n => n + 1), .fallback⟩ =
      (none, ⟨[(0, ⟨.simple (fun n => n), .normal⟩)]⟩, none)) ∧
    (Locator.update ⟨[(0, ⟨.simple (fun n => n), .normal⟩)]⟩ [0]
        ⟨.simple (fun n => n + 1), .override⟩ =
      (none,
        Locator.setRecord ⟨[(0, ⟨.simple (fun n => n), .normal⟩)]⟩ 0
          ⟨.simple (fun n => n + 1), .override⟩,
        some ⟨[0], .override⟩)) ∧
    (Locator.setRecord ⟨[(0, ⟨.simple (fun n => n), .normal⟩)]⟩ 0
        ⟨.simple (fun n => n + 1), .override⟩).getItem 0 =
      .ok (.simple (fun n => n + 1)) := by
  refine ⟨?_, ?_, ?_, ?_, ?_⟩
  · exact ((C1_register_conflict_policy ⟨[]⟩ 0 ⟨.simple (fun n => n), .normal⟩).1 rfl).1
  · exact (((C1_register_conflict_policy ⟨[(0, ⟨.simple (fun n => n), .normal⟩)]⟩ 0
      ⟨.simple (fun n => n + 1), .normal⟩).2 ⟨.simple (fun n => n), .normal⟩ rfl).1
      ⟨rfl, by simp⟩)
  · exact (((C1_register_conflict_policy ⟨[(0, ⟨.simple (fun n => n), .normal⟩)]⟩ 0
      ⟨.simple (fun n => n + 1), .fallback⟩).2 ⟨.simple (fun n => n), .normal⟩ rfl).2.1
      (by simp [Mode.rank]))
  · exact ((((C1_register_conflict_policy ⟨[(0, ⟨.simple (fun n => n), .normal⟩)]⟩ 0
      ⟨.simple (fun n => n + 1), .override⟩).2 ⟨.simple (fun n => n), .normal⟩ rfl).2.2
      (by simp [Mode.rank]) (by simp)).1)
  · exact ((((C1_register_conflict_policy ⟨[(0, ⟨.simple (fun n => n), .normal⟩)]⟩ 0
      ⟨.simple (fun n => n + 1), .override⟩).2 ⟨.simple (fun n => n), .normal⟩ rfl).2.2
      (by simp [Mode.rank]) (by simp)).2)

/--
C10: Registration is atomic on error: when `Locator.update` raises the
conflict error for any of its requested keys, no key from the call — not even
the keys accepted earlier in the iteration — is written, no dependency-update
event is dispatched, and the records map is exactly as before the call
(`dict(...)` consumes the whole `__prepare_for_updating` generator before
`__records.update` runs).
-/
theorem C10_update_atomic_on_error (loc : Locator) (classes : List Key)
    (rec : Record) (e : Err)
    (h : loc.prepareForUpdating classes.dedup rec = .error e) :
    Locator.update loc classes rec = (some e, loc, none) := by
  simp [Locator.update, h]

/--
Witness for C10: registry holding key 1 under Normal; registering keys 0 and 1
together under Normal raises the conflict on key 1 and key 0 — individually
acceptable and accepted earlier in the iteration — is not written either; no
event, records unchanged.
-/
theorem C10_update_atomic_on_error_witness :
    Locator.update ⟨[(1, ⟨.simple (fun n => n), .normal⟩)]⟩ [0, 1]
        ⟨.simple (fun n => n + 1), .normal⟩ =
      (some (.conflict 1), ⟨[(1, ⟨.simple (fun n => n), .normal⟩)]⟩, none) ∧
    (Locator.update ⟨[(1, ⟨.simple (fun n => n), .normal⟩)]⟩ [0, 1]
        ⟨.simple (fun n => n + 1), .normal⟩).2.1.lookupRecord 0 = none := by
  have h := C10_update_atomic_on_error ⟨[(1, ⟨.simple (fun n => n), .normal⟩)]⟩ [0, 1]
    ⟨.simple (fun n => n + 1), .normal⟩ (.conflict 1) rfl
  exact ⟨h, by rw [h]; rfl⟩

/--
C8: Resolving a key bound only to the `ShouldBeInjectable` placeholder
(registered under Fallback) fails with the descriptive error naming the
class; after a real Normal registration for the same key — which supersedes
the Fallback record since Fallback rank < Normal rank — resolving the key
returns the real binding's instance and no longer raises the placeholder
error.
-/
theorem C8_placeholder_superseded (loc : Locator) (k : Key) (realRec : Record)
    (n : Nat)
    (hfb : loc.lookupRecord k = some ⟨.shouldBe k, .fallback⟩)
    (hmode : realRec.mode = .normal) :
    loc.findInstance k n = .error (.shouldBeInjectable k) ∧
    Locator.update loc [k] realRec =
      (none, loc.setRecord k realRec, some ⟨[k], realRec.mode⟩) ∧
    (∀ i inj2 n2, realRec.injectable.getInstance n = .ok (i, inj2, n2) →
      (loc.setRecord k realRec).findInstance k n =
        .ok (i, (loc.setRecord k realRec).setRecord k ⟨inj2, realRec.mode⟩, n2)) := by
  refine ⟨?_, ?_, ?_⟩
  · simp [Locator.findInstance, hfb, Injectable.getInstance, Bind.bind, Except.bind]
  · have hk : keepNewRecord realRec ⟨.shouldBe k, .fallback⟩ k = .ok true := by
      apply keepNewRecord_replace
      · rw [hmode]
        simp [Mode.rank]
      · rw [hmode]
        simp
    simp [Locator.update, dedup_single, prepare_single, hfb, hk, Locator.writeAll]
  · intro i inj2 n2 hget
    simp [Locator.findInstance, lookupRecord_setRecord_self, hget, Bind.bind, Except.bind]

/--
Witness for C8: placeholder for key 0 under Fallback errors on resolution;
registering a real Normal factory replaces it and resolution then returns the
real instance.
-/
theorem C8_placeholder_superseded_witness :
    Locator.findInstance ⟨[(0, ⟨.shouldBe 0, .fallback⟩)]⟩ 0 3 =
      .error (.shouldBeInjectable 0) ∧
    Locator.update ⟨[(0, ⟨.shouldBe 0, .fallback⟩)]⟩ [0]
        ⟨.simple (fun n => n + 5), .normal⟩ =
      (none,
        Locator.setRecord ⟨[(0, ⟨.shouldBe 0, .fallback⟩)]⟩ 0
          ⟨.simple (fun n => n + 5), .normal⟩,
        some ⟨[0], .normal⟩) ∧
    (Locator.setRecord ⟨[(0, ⟨.shouldBe 0, .fallback⟩)]⟩ 0
        ⟨.simple (fun n => n + 5), .normal⟩).findInstance 0 3 =
      .ok (8,
        (Locator.setRecord ⟨[(0, ⟨.shouldBe 0, .fallback⟩)]⟩ 0
            ⟨.simple (fun n => n + 5), .normal⟩).setRecord 0
          ⟨.simple (fun n => n + 5), .normal⟩, 4) := by
  have h := C8_placeholder_superseded ⟨[(0, ⟨.shouldBe 0, .fallback⟩)]⟩ 0
    ⟨.simple (fun n => n + 5), .normal⟩ 3 rfl rfl
  exact ⟨h.1, h.2.1, h.2.2 8 (.simple (fun n => n + 5)) 4 rfl⟩

/--
C5: A transient binding (`SimpleInjectable`) invokes its factory on every
resolution, so two consecutive resolutions consume two distinct fresh-supply
indices and a fresh-object (injective) factory yields non-identical
instances; a singleton binding (`SingletonInjectable`) invokes the factory at
most once — the second resolution returns the identical cached instance with
no factory invocation — `is_locked` holds exactly when an instance is cached,
and `unlock` clears the cache so the next resolution invokes the factory
again.
-/
theorem C5_injectable_lifecycles (f : Factory) (hf : Function.Injective f)
    (n : Nat) (i : Instance) :
    Injectable.getInstance (.simple f) n = .ok (f n, .simple f, n + 1) ∧
    Injectable.getInstance (.simple f) (n + 1) = .ok (f (n + 1), .simple f, n + 2) ∧
    f n ≠ f (n + 1) ∧
    Injectable.getInstance (.singleton f none) n =
      .ok (f n, .singleton f (some (f n)), n + 1) ∧
    Injectable.getInstance (.singleton f (some i)) n =
      .ok (i, .singleton f (some i), n) ∧
    Injectable.isLocked (.singleton f (some i)) = true ∧
    Injectable.isLocked (.singleton f none) = false ∧
    Injectable.unlock (.singleton f (some i)) = .singleton f none := by
  refine ⟨rfl, rfl, ?_, rfl, rfl, rfl, rfl, rfl⟩
  intro he
  have := hf he
  omega

/-- Witness for C5 at the identity factory. -/
theorem C5_injectable_lifecycles_witness :
    Injectable.getInstance (.simple (fun v => v)) 0 =
      .ok (0, .simple (fun v => v), 1) ∧
    (0 : Instance) ≠ (1 : Instance) ∧
    Injectable.getInstance (.singleton (fun v => v) (some 7)) 5 =
      .ok (7, .singleton (fun v => v) (some 7), 5) := by
  have h := C5_injectable_lifecycles (fun v => v) (fun a b hab => hab) 0 7
  exact ⟨h.1, h.2.2.1, (C5_injectable_lifecycles (fun v => v)
    (fun a b hab => hab) 5 7).2.2.2.2.1⟩

theorem lookupName_append {α : Type} (x y : List (String × α)) (s : String) :
    lookupName (x ++ y) s = (lookupName x s).or (lookupName y s) := by
  unfold lookupName
  rw [List.find?_append]
  cases List.find? (fun p => decide (p.1 = s)) x <;> simp

theorem lookupName_map_value {α β : Type} (a : List (String × α))
    (g : String × α → β) (s : String) :
    lookupName (a.map (fun p => (p.1, g p))) s =
      (a.find? (fun p => p.1 = s)).map (fun p => g p) := by
  induction a with
  | nil => rfl
  | cons p ps ih =>
    by_cases hp : p.1 = s
    · simp [lookupName, List.find?_cons, hp]
    · simp only [List.map_cons, lookupName, List.find?_cons, decide_eq_false hp] at ih ⊢
      exact ih

theorem lookupName_filter_keep {α : Type} (pred : String × α → Bool)
    (b : List (String × α)) (s : String)
    (hkeep : ∀ q : String × α, q.1 = s → pred q = true) :
    lookupName (b.filter pred) s = lookupName b s := by
  induction b with
  | nil => rfl
  | cons q qs ih =>
    by_cases hq : q.1 = s
    · rw [List.filter_cons_of_pos (hkeep q hq)]
      unfold lookupName
      rw [List.find?_cons_of_pos _ (by simpa using hq),
        List.find?_cons_of_pos _ (by simpa using hq)]
    · cases hpq : pred q
      · rw [List.filter_cons_of_neg (by simp [hpq])]
        rw [ih]
        unfold lookupName
        rw [List.find?_cons_of_neg _ (by simpa using hq)]
      · rw [List.filter_cons_of_pos hpq]
        unfold lookupName
        rw [List.find?_cons_of_neg _ (by simpa using hq),
          List.find?_cons_of_neg _ (by simpa using hq)]
        exact ih

theorem lookupName_dictUnion {α : Type} (a b : List (String × α)) (s : String) :
    lookupName (dictUnion a b) s = (lookupName b s).or (lookupName a s) := by
  unfold dictUnion
  rw [lookupName_append, lookupName_map_value]
  cases hfa : a.find? (fun p => decide (p.1 = s)) with
  | none =>
    have ha : lookupName a s = none := by
      unfold lookupName
      rw [hfa]
      rfl
    have hkeep : ∀ q : String × α, q.1 = s →
        ((lookupName a q.1).isNone : Bool) = true := by
      intro q hq
      rw [hq, ha]
      rfl
    rw [lookupName_filter_keep _ b s hkeep, ha]
    cases lookupName b s <;> simp
  | some p =>
    have hp : p.1 = s := by simpa using List.find?_some hfa
    have ha : lookupName a s = some p.2 := by
      unfold lookupName
      rw [hfa]
      rfl
    rw [ha]
    simp only [Option.map_some']
    rw [hp]
    cases hb : lookupName b s <;> simp [hb]

/--
C6: `InjectedFunction.bind`: with an empty dependency map the explicit
arguments are returned unchanged; otherwise the injected name-to-instance map
is merged with the explicitly bound arguments via
`bound.arguments | dependencies.arguments | bound.arguments`, so an explicit
argument always wins over an injected value for the same parameter name and
a name not explicitly bound gets the injected value; and the dependency-map
build (`Dependencies.__resolver`) simply omits any declared parameter whose
annotation has no binding in the module, raising no error at map-build time.
-/
theorem C6_bind_merge_semantics (fn : InjectedFunction)
    (bound : List (String × Instance)) (n : Nat) :
    (fn.deps = [] → fn.bind bound n = .ok (bound, n)) ∧
    (∀ depArgs n2, fn.deps ≠ [] → depsArguments fn.deps n = .ok (depArgs, n2) →
      fn.bind bound n = .ok (dictUnion (dictUnion bound depArgs) bound, n2) ∧
      (∀ s v, lookupName bound s = some v →
        lookupName (dictUnion (dictUnion bound depArgs) bound) s = some v) ∧
      (∀ s, lookupName bound s = none →
        lookupName (dictUnion (dictUnion bound depArgs) bound) s =
          lookupName depArgs s)) ∧
    (∀ (m : Module) (name : String) (k : Key) (ps1 ps2 : List (String × Key)),
      m.getInj k = none →
      dependenciesResolver (ps1 ++ (name, k) :: ps2) m =
        dependenciesResolver (ps1 ++ ps2) m) := by
  refine ⟨?_, ?_, ?_⟩
  · intro h
    simp [InjectedFunction.bind, h]
  · intro depArgs n2 hne hdeps
    have hbind : fn.bind bound n = .ok (dictUnion (dictUnion bound depArgs) bound, n2) := by
      cases hd : fn.deps with
      | nil => exact absurd hd hne
      | cons q qs =>
        rw [hd] at hdeps
        simp [InjectedFunction.bind, hd, hdeps, Bind.bind, Except.bind]
    refine ⟨hbind, ?_, ?_⟩
    · intro s v hv
      rw [lookupName_dictUnion, hv]
      rfl
    · intro s hnone
      rw [lookupName_dictUnion, hnone, lookupName_dictUnion, hnone]
      cases lookupName depArgs s <;> rfl
  · intro m name k ps1 ps2 hmiss
    simp [dependenciesResolver, List.filterMap_append, List.filterMap_cons, hmiss]

def nameA : String := "a"

def nameC : String := "c"

def nameX : String := "x"

/--
Witness for C6: explicit argument for `a` beats the injected one, the
injected-only name `c` is taken from the dependency map, and an unresolvable
parameter `x` is dropped from the map without error.
-/
theorem C6_bind_merge_semantics_witness :
    (InjectedFunction.bind ⟨[], []⟩ [(nameA, 9)] 0 = .ok ([(nameA, 9)], 0)) ∧
    (InjectedFunction.bind
        ⟨[], [(nameA, .simple (fun v => v + 1)), (nameC, .simple (fun v => v + 2))]⟩
        [(nameA, 9)] 0 =
      .ok (dictUnion (dictUnion [(nameA, 9)] [(nameA, 1), (nameC, 3)]) [(nameA, 9)], 2)) ∧
    lookupName
      (dictUnion (dictUnion [(nameA, 9)] [(nameA, 1), (nameC, 3)]) [(nameA, 9)])
      nameA = some 9 ∧
    lookupName
      (dictUnion (dictUnion [(nameA, 9)] [(nameA, 1), (nameC, 3)]) [(nameA, 9)])
      nameC = some 3 ∧
    dependenciesResolver [(nameX, 5)] (.mk 0 ⟨[]⟩ []) = [] := by
  have h0 := (C6_bind_merge_semantics ⟨[], []⟩ [(nameA, 9)] 0).1 rfl
  have h := (C6_bind_merge_semantics
    ⟨[], [(nameA, .simple (fun v => v + 1)), (nameC, .simple (fun v => v + 2))]⟩
    [(nameA, 9)] 0).2.1 [(nameA, 1), (nameC, 3)] 2 (by simp) rfl
  have h3 := (C6_bind_merge_semantics ⟨[], []⟩ [] 0).2.2
    (.mk 0 ⟨[]⟩ []) nameX 5 [] [] rfl
  refine ⟨h0, h.1, h.2.1 nameA 9 rfl, ?_, h3⟩
  have hc := h.2.2 nameC (by simp [lookupName, nameA, nameC])
  rw [hc]
  simp [lookupName, nameA, nameC]

/--
C2: Module resolution searches the used modules in priority order — a module
used with High priority is placed in front of one used with Low priority —
and only then the module's own locator, returning the first successful lookup
and raising `NoInjectable` when every broker misses; in particular, when A
uses B with Low and C with High and both hold a binding for key k, A resolves
k to C's binding's injectable.
-/
theorem C2_priority_resolution (aloc : Locator) (b c : Module) (an : Nat)
    (k : Key) (injc : Injectable)
    (hb : b.name ≠ an) (hc : c.name ≠ an) (hbc : c.name ≠ b.name)
    (haloc : aloc.isLocked = false) (hlockb : b.isLocked = false) :
    Module.use (.mk an aloc []) b .low = (none, .mk an aloc [b]) ∧
    Module.use (.mk an aloc [b]) c .high = (none, .mk an aloc [c, b]) ∧
    (c.getInj k = some injc → Module.getInj (.mk an aloc [c, b]) k = some injc) ∧
    (∀ k2, c.getInj k2 = none → b.getInj k2 = none →
      Module.findInj (.mk an aloc [c, b]) k2 = aloc.getItem k2) := by
  cases b with
  | mk bn bloc bus =>
    cases c with
    | mk cn cloc cus =>
      simp only [Module.name] at hb hc hbc
      simp only [Module.isLocked] at hlockb
      refine ⟨?_, ?_, ?_, ?_⟩
      · simp [Module.use, Module.usedNames, Module.used, Module.name, Module.isLocked,
          Module.locator, usedAnyLocked, hb, haloc]
      · simp [Module.use, Module.usedNames, Module.used, Module.name, Module.isLocked,
          Module.locator, usedAnyLocked, hc, hbc, haloc, hlockb]
      · intro hck
        simp only [Module.getInj] at hck
        simp [Module.getInj, usedGetInj, hck]
      · intro k2 hck hbk
        simp only [Module.getInj, Locator.getItem] at hck hbk
        cases hal : aloc.lookupRecord k2 with
        | none =>
          simp [Module.findInj, Module.getInj, usedGetInj, hck, hbk,
            Locator.getItem, hal]
        | some record =>
          simp [Module.findInj, Module.getInj, usedGetInj, hck, hbk,
            Locator.getItem, hal]

/--
Witness for C2: A (name 0) uses B (name 1, Low) then C (name 2, High); both
bind key 5; A resolves key 5 to C's injectable, and a key bound nowhere falls
through to A's own empty locator and fails with `NoInjectable`.
-/
theorem C2_priority_resolution_witness :
    Module.use (.mk 0 ⟨[]⟩ []) (.mk 1 ⟨[(5, ⟨.simple (fun v => v + 1), .normal⟩)]⟩ [])
        .low =
      (none, .mk 0 ⟨[]⟩ [.mk 1 ⟨[(5, ⟨.simple (fun v => v + 1), .normal⟩)]⟩ []]) ∧
    Module.getInj
      (.mk 0 ⟨[]⟩
        [.mk 2 ⟨[(5, ⟨.simple (fun v => v + 2), .normal⟩)]⟩ [],
          .mk 1 ⟨[(5, ⟨.simple (fun v => v + 1), .normal⟩)]⟩ []]) 5 =
      some (.simple (fun v => v + 2)) ∧
    Module.findInj
      (.mk 0 ⟨[]⟩
        [.mk 2 ⟨[(5, ⟨.simple (fun v => v + 2), .normal⟩)]⟩ [],
          .mk 1 ⟨[(5, ⟨.simple (fun v => v + 1), .normal⟩)]⟩ []]) 9 =
      .error (.noInjectable 9) := by
  have h := C2_priority_resolution ⟨[]⟩
    (.mk 1 ⟨[(5, ⟨.simple (fun v => v + 1), .normal⟩)]⟩ [])
    (.mk 2 ⟨[(5, ⟨.simple (fun v => v + 2), .normal⟩)]⟩ [])
    0 5 (.simple (fun v => v + 2))
    (by simp [Module.name]) (by simp [Module.name]) (by simp [Module.name])
    rfl rfl
  refine ⟨h.1, h.2.2.1 rfl, ?_⟩
  have h9 := h.2.2.2 9 rfl rfl
  rw [h9]
  rfl

theorem injectable_unlock_not_locked (inj : Injectable) :
    inj.unlock.isLocked = false := by
  cases inj <;> rfl

theorem locator_unlock_not_locked (loc : Locator) :
    loc.unlock.isLocked = false := by
  unfold Locator.unlock Locator.isLocked
  rw [List.any_map, List.any_eq_false]
  intro p _
  simp [Function.comp, injectable_unlock_not_locked]

mutual

theorem module_unlock_not_locked : ∀ m : Module, m.unlock.isLocked = false
  | .mk n loc us => by
    simp [Module.unlock, Module.isLocked, locator_unlock_not_locked,
      usedUnlock_not_locked us]

theorem usedUnlock_not_locked : ∀ us : List Module,
    usedAnyLocked (usedUnlock us) = false
  | [] => rfl
  | m :: ms => by
    simp [usedUnlock, usedAnyLocked, module_unlock_not_locked m,
      usedUnlock_not_locked ms]

end

theorem unlock_name (m : Module) : m.unlock.name = m.name := by
  cases m
  rfl

theorem unlock_locator (m : Module) : m.unlock.locator = m.locator.unlock := by
  cases m
  rfl

theorem usedUnlock_names : ∀ us : List Module,
    (usedUnlock us).map Module.name = us.map Module.name
  | [] => rfl
  | m :: ms => by
    simp [usedUnlock, unlock_name m, usedUnlock_names ms]

theorem unlock_usedNames (m : Module) : m.unlock.usedNames = m.usedNames := by
  cases m with
  | mk n loc us =>
    simp [Module.unlock, Module.usedNames, Module.used, usedUnlock_names]

theorem find_name_isSome_eq_contains : ∀ (us : List Module) (o : Nat),
    (us.find? (fun u => u.name = o)).isSome = (us.map Module.name).contains o
  | [], _ => rfl
  | m :: ms, o => by
    by_cases hm : m.name = o
    · have hfind : List.find? (fun u => decide (u.name = o)) (m :: ms) = some m :=
        List.find?_cons_of_pos ms (by simpa using hm)
      have hbeq : (o == m.name) = true := beq_iff_eq.mpr hm.symm
      simp only [hfind, Option.isSome_some, List.map_cons, List.contains_cons, hbeq,
        Bool.true_or]
    · have hfind : List.find? (fun u => decide (u.name = o)) (m :: ms) =
          List.find? (fun u => decide (u.name = o)) ms :=
        List.find?_cons_of_neg ms (by simpa using hm)
      rw [hfind, find_name_isSome_eq_contains ms o, List.map_cons, List.contains_cons]
      have hbeq : (o == m.name) = false :=
        beq_eq_false_iff_ne.mpr (fun h => hm h.symm)
      rw [hbeq, Bool.false_or]

theorem lookupRecord_unlock (loc : Locator) (k : Key) :
    loc.unlock.lookupRecord k =
      (loc.lookupRecord k).map (fun r => ⟨r.injectable.unlock, r.mode⟩) := by
  unfold Locator.unlock Locator.lookupRecord
  rw [List.find?_map]
  have hpred : ((fun p => decide (p.1 = k)) ∘ fun (p : Key × Record) =>
      (p.1, (⟨p.2.injectable.unlock, p.2.mode⟩ : Record))) =
      (fun p : Key × Record => decide (p.1 = k)) := rfl
  rw [hpred]
  cases loc.records.find? (fun p : Key × Record => decide (p.1 = k)) <;> rfl

theorem prepare_unlock (loc : Locator) (rec : Record) : ∀ classes : List Key,
    loc.unlock.prepareForUpdating classes rec = loc.prepareForUpdating classes rec
  | [] => rfl
  | c :: rest => by
    unfold Locator.prepareForUpdating
    rw [lookupRecord_unlock]
    cases hl : loc.lookupRecord c with
    | none =>
      simp only [Option.map_none']
      rw [prepare_unlock loc rec rest]
    | some existing =>
      simp only [Option.map_some']
      have hkeep : keepNewRecord rec ⟨existing.injectable.unlock, existing.mode⟩ c =
          keepNewRecord rec existing c := rfl
      rw [hkeep, prepare_unlock loc rec rest]

/--
Counterexample to C3 as stated: a locked module (its locator holds a cached
singleton for key 0) accepts a register call for key 0 under Fallback mode
without any error — every key is silently skipped by the conflict policy, so
no event is dispatched and `__check_locking` never runs — instead of failing
with `ModuleLockError` as the claim demands for every register call while
locked.
-/
theorem C3_locked_register_no_error_counterexample :
    Module.isLocked
      (.mk 0 ⟨[(0, ⟨.singleton (fun v => v) (some 7), .normal⟩)]⟩ []) = true ∧
    Module.update (.mk 0 ⟨[(0, ⟨.singleton (fun v => v) (some 7), .normal⟩)]⟩ [])
        [0] ⟨.simple (fun v => v), .fallback⟩ =
      (none, .mk 0 ⟨[(0, ⟨.singleton (fun v => v) (some 7), .normal⟩)]⟩ []) := by
  constructor
  · rfl
  · rfl

/--
C3 (amended): While a module is locked, `use`, `stop_using` and
`change_priority` fail with `ModuleLockError` and leave the module unchanged
(for `use`, on arguments that pass the self/duplicate checks, which run
first); a register (`update`) fails with `ModuleLockError` exactly when at
least one key is accepted — a call whose keys are all silently skipped
dispatches no event, never reaches the lock check, and succeeds as a no-op —
and in every case the module state is unchanged. `unlock()` cascades to the
module's own locator and every used module, making `is_locked` false, after
which the same mutating calls succeed.
-/
theorem C3_lock_semantics_amended :
    (∀ (m other : Module) (p : Priority), m.isLocked = true →
      other.name ≠ m.name → m.usedNames.contains other.name = false →
      m.use other p = (some .lockError, m)) ∧
    (∀ m other : Module, m.isLocked = true →
      m.stopUsing other = (some .lockError, m)) ∧
    (∀ (m other : Module) (p : Priority), m.isLocked = true →
      m.changePriority other p = (some .lockError, m)) ∧
    (∀ (m : Module) (classes : List Key) (rec : Record) (acc : List Key),
      m.isLocked = true →
      m.locator.prepareForUpdating classes.dedup rec = .ok acc →
      m.update classes rec = ((if acc.isEmpty then none else some .lockError), m)) ∧
    (∀ m : Module, m.unlock.isLocked = false) ∧
    (∀ (m other : Module) (p : Priority),
      other.name ≠ m.name → m.usedNames.contains other.name = false →
      (m.unlock.use other p).1 = none) ∧
    (∀ m other : Module, (m.unlock.stopUsing other).1 = none) ∧
    (∀ (m other : Module) (p : Priority),
      m.usedNames.contains other.name = true →
      (m.unlock.changePriority other p).1 = none) ∧
    (∀ (m : Module) (classes : List Key) (rec : Record) (acc : List Key),
      m.locator.prepareForUpdating classes.dedup rec = .ok acc →
      (m.unlock.update classes rec).1 = none) := by
  refine ⟨?_, ?_, ?_, ?_, module_unlock_not_locked, ?_, ?_, ?_, ?_⟩
  · intro m other p hlock hname hcont
    have hmem : other.name ∉ m.usedNames := by simpa using hcont
    simp [Module.use, hname, hmem, hlock]
  · intro m other hlock
    simp [Module.stopUsing, hlock]
  · intro m other p hlock
    simp [Module.changePriority, hlock]
  · intro m classes rec acc hlock hprep
    cases hae : acc.isEmpty <;>
      simp [Module.update, Module.updateE, hprep, hae, hlock]
  · intro m other p hname hcont
    have hl := module_unlock_not_locked m
    have hn : other.name ≠ m.unlock.name := by
      rw [unlock_name]
      exact hname
    have hcn : other.name ∉ m.unlock.usedNames := by
      rw [unlock_usedNames]
      simpa using hcont
    cases p <;> simp [Module.use, hn, hcn, hl]
  · intro m other
    have hl := module_unlock_not_locked m
    simp only [Module.stopUsing, hl, Bool.false_eq_true, if_false]
    split <;> rfl
  · intro m other p hcont
    have hl := module_unlock_not_locked m
    have hsome : (m.unlock.used.find? (fun u => u.name = other.name)).isSome = true := by
      rw [find_name_isSome_eq_contains]
      show (m.unlock.usedNames).contains other.name = true
      rw [unlock_usedNames]
      exact hcont
    cases hf : m.unlock.used.find? (fun u => u.name = other.name) with
    | none =>
      rw [hf] at hsome
      simp at hsome
    | some u =>
      cases p <;> simp [Module.changePriority, hl, hf]
  · intro m classes rec acc hprep
    have hl := module_unlock_not_locked m
    have hploc : m.unlock.locator.prepareForUpdating classes.dedup rec = .ok acc := by
      rw [unlock_locator, prepare_unlock]
      exact hprep
    cases hae : acc.isEmpty <;>
      simp [Module.update, Module.updateE, hploc, hae, hl]

/--
Witness for C3 (amended): a module locked by a cached singleton rejects
`use` and an accepting register with `ModuleLockError`, leaving it unchanged;
after `unlock()` it is no longer locked and the same `use` succeeds.
-/
theorem C3_lock_semantics_amended_witness :
    Module.use (.mk 0 ⟨[(0, ⟨.singleton (fun v => v) (some 7), .normal⟩)]⟩ [])
        (.mk 1 ⟨[]⟩ []) .low =
      (some .lockError,
        .mk 0 ⟨[(0, ⟨.singleton (fun v => v) (some 7), .normal⟩)]⟩ []) ∧
    Module.update (.mk 0 ⟨[(0, ⟨.singleton (fun v => v) (some 7), .normal⟩)]⟩ [])
        [1] ⟨.simple (fun v => v), .normal⟩ =
      (some .lockError,
        .mk 0 ⟨[(0, ⟨.singleton (fun v => v) (some 7), .normal⟩)]⟩ []) ∧
    (Module.mk 0 ⟨[(0, ⟨.singleton (fun v => v) (some 7), .normal⟩)]⟩ []).unlock.isLocked
      = false ∧
    ((Module.mk 0 ⟨[(0, ⟨.singleton (fun v => v) (some 7), .normal⟩)]⟩
        []).unlock.use (.mk 1 ⟨[]⟩ []) .low).1 = none := by
  have h := C3_lock_semantics_amended
  refine ⟨?_, ?_, h.2.2.2.2.1 _, ?_⟩
  · exact h.1 _ (.mk 1 ⟨[]⟩ []) .low rfl (by simp [Module.name]) rfl
  · have h4 := h.2.2.2.1
      (.mk 0 ⟨[(0, ⟨.singleton (fun v => v) (some 7), .normal⟩)]⟩ [])
      [1] ⟨.simple (fun v => v), .normal⟩ [1] rfl rfl
    simpa using h4
  · exact h.2.2.2.2.2.1 _ (.mk 1 ⟨[]⟩ []) .low (by simp [Module.name]) rfl

/--
C4: evaluation of `use_temporarily` at a with-body that raises. The claim says
`stop_using` runs on every exit path; in the code the `yield` is not wrapped
in try/finally, so when the body raises, the exception is thrown into the
generator at the yield and `stop_using` is skipped: the used module stays in
the used-list. The third conjunct shows the normal exit path does remove it.
-/
theorem C4_use_temporarily_body_error_keeps_module :
    Module.useTemporarily (.mk 0 ⟨[]⟩ []) (.mk 1 ⟨[]⟩ []) .low
        (fun mm => (some .bodyError, mm)) =
      (some .bodyError, .mk 0 ⟨[]⟩ [.mk 1 ⟨[]⟩ []]) ∧
    (Module.mk 0 ⟨[]⟩ [.mk 1 ⟨[]⟩ []]).usedNames = [1] ∧
    Module.useTemporarily (.mk 0 ⟨[]⟩ []) (.mk 1 ⟨[]⟩ []) .low
        (fun mm => (none, mm)) =
      (none, .mk 0 ⟨[]⟩ []) := by
  refine ⟨rfl, rfl, rfl⟩

theorem getInj_none_parts (mn : Nat) (mloc : Locator) (mus : List Module) (k : Key)
    (h : Module.getInj (.mk mn mloc mus) k = none) :
    usedGetInj mus k = none ∧ mloc.lookupRecord k = none := by
  simp only [Module.getInj, Locator.getItem] at h
  cases hu : usedGetInj mus k with
  | some i =>
    rw [hu] at h
    simp at h
  | none =>
    rw [hu] at h
    cases hl : mloc.lookupRecord k with
    | some r =>
      rw [hl] at h
      simp at h
    | none => exact ⟨rfl, rfl⟩

/--
C7: when an injected function's single declared dependency (annotation key k)
is initially unresolvable in module m, then after a new binding for k is
registered into m — or into a module m uses, whose event m re-emits as a
proxy — the dependency map is rebuilt by the event handler with no explicit
re-subscription, and the very next `bind` resolves the dependency to the
newly registered binding's instance.
-/
theorem C7_event_rebuilds_dependencies (m : Module) (f : InjectedFunction)
    (name : String) (k : Key) (rec : Record) (n : Nat)
    (hparams : f.params = [(name, k)])
    (hmiss : m.getInj k = none)
    (hnolock : m.isLocked = false) :
    (Module.registerNotify m f [k] rec =
      (none, Module.mk m.name (m.locator.setRecord k rec) m.used,
        f.update (Module.mk m.name (m.locator.setRecord k rec) m.used)) ∧
     (f.update (Module.mk m.name (m.locator.setRecord k rec) m.used)).deps =
        [(name, rec.injectable)] ∧
     (∀ i inj2 n2, rec.injectable.getInstance n = .ok (i, inj2, n2) →
       (f.update (Module.mk m.name (m.locator.setRecord k rec) m.used)).bind [] n =
         .ok ([(name, i)], n2))) ∧
    (∀ u : Module, m.used = [u] →
      Module.registerIntoUsed m f u [k] rec =
        (none,
          Module.mk m.name m.locator
            [Module.mk u.name (u.locator.setRecord k rec) u.used],
          f.update (Module.mk m.name m.locator
            [Module.mk u.name (u.locator.setRecord k rec) u.used])) ∧
      (f.update (Module.mk m.name m.locator
          [Module.mk u.name (u.locator.setRecord k rec) u.used])).deps =
        [(name, rec.injectable)]) := by
  cases m with
  | mk mn mloc mus =>
    obtain ⟨hused, hloc⟩ := getInj_none_parts mn mloc mus k hmiss
    simp only [Module.isLocked] at hnolock
    have hdeps : (f.update (Module.mk mn (mloc.setRecord k rec) mus)).deps =
        [(name, rec.injectable)] := by
      simp [InjectedFunction.update, dependenciesResolver, hparams, Module.getInj,
        hused, Locator.getItem, lookupRecord_setRecord_self]
    constructor
    · refine ⟨?_, ?_, ?_⟩
      · simp [Module.registerNotify, Module.updateE, Locator.prepareForUpdating,
          dedup_single, hloc, hnolock, Module.isLocked, Module.name, Module.locator,
          Module.used, Locator.writeAll]
      · simpa [Module.name, Module.locator, Module.used] using hdeps
      · intro i inj2 n2 hget
        have hd := hdeps
        simp only [Module.name, Module.locator, Module.used] at hd ⊢
        rw [InjectedFunction.bind, hd]
        simp [depsArguments, hget, Bind.bind, Except.bind, dictUnion, lookupName]
    · intro u huse
      subst huse
      cases u with
      | mk un uloc uus =>
        have hu : Module.getInj (.mk un uloc uus) k = none := by
          simp only [usedGetInj] at hused
          cases hg : Module.getInj (.mk un uloc uus) k with
          | some i =>
            rw [hg] at hused
            simp at hused
          | none => rfl
        obtain ⟨huu, hul⟩ := getInj_none_parts un uloc uus k hu
        have hulock : Module.isLocked (.mk un uloc uus) = false := by
          simp only [usedAnyLocked, Bool.or_eq_false_iff] at hnolock
          exact hnolock.1.1
        have hmlock : Module.isLocked (.mk mn mloc [Module.mk un uloc uus]) = false := by
          simp only [Module.isLocked]
          exact hnolock
        constructor
        · simp [Module.registerIntoUsed, Locator.prepareForUpdating, dedup_single,
            hul, hulock, hmlock, Module.name, Module.locator, Module.used,
            Locator.writeAll]
        · simp [InjectedFunction.update, dependenciesResolver, hparams,
            Module.getInj, usedGetInj, huu, Locator.getItem,
            lookupRecord_setRecord_self, Module.name, Module.locator, Module.used]

/--
Witness for C7: a function with one dependency (name `a`, key 5), initially
unresolvable; after registering key 5 (directly, and into the used module),
the rebuilt map holds the new injectable and the next `bind` yields its
instance.
-/
theorem C7_event_rebuilds_dependencies_witness :
    (InjectedFunction.update ⟨[(nameA, 5)], []⟩
        (.mk 0 (Locator.setRecord ⟨[]⟩ 5 ⟨.simple (fun v => v + 3), .normal⟩)
          [.mk 1 ⟨[]⟩ []])).deps =
      [(nameA, .simple (fun v => v + 3))] ∧
    (InjectedFunction.update ⟨[(nameA, 5)], []⟩
        (.mk 0 (Locator.setRecord ⟨[]⟩ 5 ⟨.simple (fun v => v + 3), .normal⟩)
          [.mk 1 ⟨[]⟩ []])).bind [] 0 = .ok ([(nameA, 3)], 1) ∧
    (InjectedFunction.update ⟨[(nameA, 5)], []⟩
        (.mk 0 ⟨[]⟩
          [.mk 1 (Locator.setRecord ⟨[]⟩ 5 ⟨.simple (fun v => v + 3), .normal⟩)
            []])).deps =
      [(nameA, .simple (fun v => v + 3))] := by
  have h := C7_event_rebuilds_dependencies (.mk 0 ⟨[]⟩ [.mk 1 ⟨[]⟩ []])
    ⟨[(nameA, 5)], []⟩ nameA 5 ⟨.simple (fun v => v + 3), .normal⟩ 0 rfl rfl rfl
  exact ⟨h.1.2.1, h.1.2.2 3 (.simple (fun v => v + 3)) 1 rfl,
    (h.2 (.mk 1 ⟨[]⟩ []) rfl).2⟩

/--
C9: evaluation of the registration race. `synchronized()`
(`_core/common/threading.py`) allocates a fresh `RLock` on every invocation,
so the two concurrent `Locator.update` calls hold distinct locks
(`raceLockOf`), the interleaving check₀ check₁ write₀ write₁ is admissible
for the locks the code actually takes — while it would be excluded under one
shared lock — and under it both equal-mode Normal register calls pass the
conflict check and both write: neither observes the conflict error that
`keepNewRecord` raises when one call sees the other's record first.
-/
theorem C9_register_race_both_win :
    raceLockOf 0 ≠ raceLockOf 1 ∧
    schedAdmissible raceSched raceLockOf = true ∧
    schedAdmissible raceSched (fun _ => 0) = false ∧
    (runRace ⟨⟨.simple (fun v => v), .normal⟩, ⟨.simple (fun v => v + 1), .normal⟩⟩
        raceSched).dec 0 = some (.ok true) ∧
    (runRace ⟨⟨.simple (fun v => v), .normal⟩, ⟨.simple (fun v => v + 1), .normal⟩⟩
        raceSched).dec 1 = some (.ok true) ∧
    (runRace ⟨⟨.simple (fun v => v), .normal⟩, ⟨.simple (fun v => v + 1), .normal⟩⟩
        raceSched).stored = some ⟨.simple (fun v => v + 1), .normal⟩ ∧
    keepNewRecord ⟨.simple (fun v => v + 1), .normal⟩ ⟨.simple (fun v => v), .normal⟩
        0 = .error (.conflict 0) := by
  refine ⟨by decide, rfl, rfl, rfl, rfl, rfl, rfl⟩

end Inj
